import Mathlib

/-!
# Verification of the `DayGrid` calendar component

A shallow embedding of the calendar logic of `src/DayGrid.js`:

* JavaScript `Date` objects produced by `new Date(year, month, day)` are
  modelled as canonical civil dates `CDate` (year, month `0..11`,
  day-of-month `1..daysInMonth`).  The JS constructor first applies the
  `MakeFullYear` rule (a year argument in `0..99` denotes `1900 + year`)
  and then normalizes out-of-range month and day arguments by calendar
  arithmetic; `mkDate` reproduces both steps.
* `Date.prototype.getDay` (weekday, 0 = Sunday) is modelled by `getDay`,
  computed from the number of days since the Unix epoch (`daysFromCivil`,
  the standard proleptic-Gregorian civil-to-day-count formula;
  1970-01-01 was a Thursday, weekday 4).
* ISO-string date keys (`toISOString`) are in bijection with the civil
  dates they encode, so the selected-date keys are modelled as `CDate`
  values and `Array.prototype.includes` as list membership.
* `DayGrid.getDaysData` and the state-changing methods
  (`previousMonth`, `nextMonth`, `select`, `deselect`, `toggle`) are
  translated statement by statement; methods that mutate component
  state become functions `GridState → GridState`.
-/

namespace Components

/-- Gregorian leap-year rule, as used by JS `Date` month arithmetic. -/
def isLeap (y : Int) : Bool :=
  y % 4 = 0 && (y % 100 != 0 || y % 400 = 0)

/-- Number of days of month `m` (0 = January .. 11 = December) of year `y`. -/
def daysInMonth (y : Int) (m : Nat) : Nat :=
  match m with
  | 0 => 31
  | 1 => if isLeap y then 29 else 28
  | 2 => 31
  | 3 => 30
  | 4 => 31
  | 5 => 30
  | 6 => 31
  | 7 => 31
  | 8 => 30
  | 9 => 31
  | 10 => 30
  | _ => 31

theorem daysInMonth_ge (y : Int) (m : Nat) : 28 ≤ daysInMonth y m := by
  unfold daysInMonth
  split <;> first | omega | (split <;> omega)

theorem daysInMonth_le (y : Int) (m : Nat) : daysInMonth y m ≤ 31 := by
  unfold daysInMonth
  split <;> first | omega | (split <;> omega)

/-- A canonical civil (proleptic Gregorian) date: the value of a JS `Date`
restricted to its local calendar fields, months numbered `0..11`. -/
structure CDate where
  year : Int
  month : Nat
  day : Nat
deriving DecidableEq, Repr

/-- Walk a day count `d ≥ 1` forward from the first day of month `(y, m)`:
the JS `Date` day-overflow normalization. -/
def addDaysFwd (y : Int) (m : Nat) (d : Nat) : CDate :=
  if d ≤ daysInMonth y m then ⟨y, m, d⟩
  else if m = 11 then addDaysFwd (y + 1) 0 (d - 31)
  else addDaysFwd y (m + 1) (d - daysInMonth y m)
termination_by d
decreasing_by
  · omega
  · have := daysInMonth_ge y m
    omega

/-- Walk a day count `d ≤ 0` backward into the months before `(y, m)`:
the JS `Date` day-underflow normalization (day 0 is the last day of the
previous month). -/
def subDaysBwd (y : Int) (m : Nat) (d : Int) : CDate :=
  if 1 ≤ d then addDaysFwd y m d.toNat
  else if m = 0 then subDaysBwd (y - 1) 11 (d + 31)
  else subDaysBwd y (m - 1) (d + daysInMonth y (m - 1))
termination_by (1 - d).toNat
decreasing_by
  · omega
  · have := daysInMonth_ge y (m - 1)
    omega

/-- The ECMAScript `MakeFullYear` rule applied by the `Date` constructor:
a year argument in `0..99` denotes `1900 + year`; any other year is taken
as is. -/
def makeFullYear (y : Int) : Int :=
  if 0 ≤ y ∧ y ≤ 99 then 1900 + y else y

/-- The JS `new Date(year, month, day)` constructor (local calendar fields):
the year argument goes through `MakeFullYear`, month overflow/underflow
carries into the year (floored division, divisor 12 > 0, so `/` and `%` on
`Int` agree with JS floor semantics), and the day argument is normalized by
calendar arithmetic from the first of the month. -/
def mkDate (y m d : Int) : CDate :=
  let yr := makeFullYear y
  let ym := yr * 12 + m
  let ny := ym / 12
  let nm := (ym % 12).toNat
  if 1 ≤ d then addDaysFwd ny nm d.toNat else subDaysBwd ny nm d

/-- Days since the Unix epoch (1970-01-01) of a civil date: the standard
civil-from-days counting formula for the proleptic Gregorian calendar
(era = 400-year cycle of 146097 days, years shifted to start in March). -/
def daysFromCivil (c : CDate) : Int :=
  let ys : Int := if c.month ≤ 1 then c.year - 1 else c.year
  let era : Int := ys / 400
  let yoe : Int := ys % 400
  let mp : Int := if 2 ≤ c.month then (c.month : Int) - 2 else (c.month : Int) + 10
  let doy : Int := (153 * mp + 2) / 5 + (c.day : Int) - 1
  era * 146097 + (yoe * 365 + yoe / 4 - yoe / 100 + doy) - 719468

/-- JS `Date.prototype.getDay`: weekday of the date, 0 = Sunday .. 6 =
Saturday.  1970-01-01 (day number 0) was a Thursday (weekday 4). -/
def getDay (c : CDate) : Nat :=
  ((daysFromCivil c + 4) % 7).toNat

/-- One element of the array returned by `DayGrid.getDaysData`. -/
structure DayData where
  date : CDate
  disabled : Bool
  selected : Bool
deriving DecidableEq, Repr

namespace DayGrid

/-- Translation of `DayGrid.getDaysData`, statement by statement from
`src/DayGrid.js`.  The `for (let i = previousMonthDaysToAdd; i > 0; i--)`
loop pushes one entry per iteration; its `j`-th push (counting from 0) has
`i = previousMonthDaysToAdd - j`.  `42 - days.length` is clamped at 0
exactly as the JS `for (let i = 1; i <= nextMonthDaysToAdd; i++)` loop
performs no iteration for a non-positive bound. -/
def getDaysData (year month startDay : Int) (selectedDates : List CDate) :
    List DayData :=
  if year = -1 ∨ month = -1 then []
  else
    let firstDay := mkDate year month 1
    let lastDayOfPreviousMonth := mkDate year month 0
    let previousMonthDaysToAdd : Int :=
      if (getDay firstDay : Int) - startDay < 0 then
        (getDay firstDay : Int) - startDay + 7
      else (getDay firstDay : Int) - startDay
    let prevDays : List DayData :=
      (List.range previousMonthDaysToAdd.toNat).map fun (j : Nat) =>
        let i : Int := previousMonthDaysToAdd - (j : Int)
        let date := mkDate year (month - 1)
          ((lastDayOfPreviousMonth.day : Int) - i + 1)
        { date := date, disabled := true,
          selected := decide (date ∈ selectedDates) }
    let lastDay := mkDate year (month + 1) 0
    let currentDays : List DayData :=
      (List.range lastDay.day).map fun (j : Nat) =>
        let date := mkDate year month ((j : Int) + 1)
        { date := date, disabled := false,
          selected := decide (date ∈ selectedDates) }
    let nextMonthDaysToAdd : Nat :=
      42 - (prevDays.length + currentDays.length)
    let nextDays : List DayData :=
      (List.range nextMonthDaysToAdd).map fun (j : Nat) =>
        let date := mkDate year (month + 1) ((j : Int) + 1)
        { date := date, disabled := true,
          selected := decide (date ∈ selectedDates) }
    prevDays ++ currentDays ++ nextDays

/-- The reactive state of a `DayGrid` element that the claims mention:
`year`/`month` (sentinel -1 = unset), `startDay`, and the private
`_selectedDates` array of selected date keys. -/
structure GridState where
  year : Int
  month : Int
  startDay : Int
  selectedDates : List CDate
deriving DecidableEq, Repr

/-- Translation of `DayGrid.previousMonth` (the `requestUpdate` render
scheduling has no effect on the state fields). -/
def previousMonth (st : GridState) : GridState :=
  if st.year = -1 ∨ st.month = -1 then st
  else if st.month = 0 then { st with month := 11, year := st.year - 1 }
  else { st with month := st.month - 1 }

/-- Translation of `DayGrid.nextMonth`. -/
def nextMonth (st : GridState) : GridState :=
  if st.year = -1 ∨ st.month = -1 then st
  else if st.month = 11 then { st with month := 0, year := st.year + 1 }
  else { st with month := st.month + 1 }

/-- Translation of `DayGrid.select`: pushes the cell's date key onto `_selectedDates`
unconditionally. -/
def select (st : GridState) (dayDate : CDate) : GridState :=
  { st with selectedDates := st.selectedDates ++ [dayDate] }

/-- Translation of `DayGrid.deselect`: keeps exactly the stored keys different from the
cell's date key (`filter ((date) => date !== day.date)`). -/
def deselect (st : GridState) (dayDate : CDate) : GridState :=
  { st with selectedDates := st.selectedDates.filter (fun date => date ≠ dayDate) }

/-- Translation of `DayGrid.toggle`, dispatching on the cell's `selected` flag. -/
def toggle (st : GridState) (day : DayData) : GridState :=
  if day.selected then deselect st day.date else select st day.date

/-- View of `DayGrid.getDaysData` as a state transformer: the method body reads
`this.year`, `this.month`, `this.startDay` and `this._selectedDates` and
assigns no component field (it only builds the local `days` array), so the
state-passing translation returns the state it was given. -/
def getDaysDataM (st : GridState) : GridState × List DayData :=
  (st, getDaysData st.year st.month st.startDay st.selectedDates)

end DayGrid

/-- Year and month of the calendar month preceding `(y, m)`. -/
def prevYM (y : Int) (m : Nat) : Int × Nat :=
  if m = 0 then (y - 1, 11) else (y, m - 1)

/-- Year and month of the calendar month following `(y, m)`. -/
def nextYM (y : Int) (m : Nat) : Int × Nat :=
  if m = 11 then (y + 1, 0) else (y, m + 1)

/-- Weekday of the first day of month `(y, m)`. -/
def firstWeekday (y : Int) (m : Nat) : Nat :=
  getDay ⟨y, m, 1⟩

/-- The quantity `(firstWeekday - startDay) mod 7`: the number of leading previous-month
cells of the grid of `(y, m)` with week start `s`. -/
def prevCount (y : Int) (m : Nat) (s : Int) : Nat :=
  (((firstWeekday y m : Int) - s) % 7).toNat

/-- The fully normalized form of the 42-cell grid: `prevCount` trailing days
of the previous month, the whole target month, and as many leading days of
the next month as fill the total to 42. -/
def gridSpec (y : Int) (m : Nat) (s : Int) (sel : List CDate) : List DayData :=
  let p := prevCount y m s
  let N := daysInMonth y m
  let py := (prevYM y m).1
  let pm := (prevYM y m).2
  let pN := daysInMonth py pm
  let ny := (nextYM y m).1
  let nm := (nextYM y m).2
  ((List.range p).map fun j =>
    { date := ⟨py, pm, pN - p + j + 1⟩, disabled := true,
      selected := decide ((⟨py, pm, pN - p + j + 1⟩ : CDate) ∈ sel) }) ++
  ((List.range N).map fun j =>
    { date := ⟨y, m, j + 1⟩, disabled := false,
      selected := decide ((⟨y, m, j + 1⟩ : CDate) ∈ sel) }) ++
  ((List.range (42 - (p + N))).map fun j =>
    { date := ⟨ny, nm, j + 1⟩, disabled := true,
      selected := decide ((⟨ny, nm, j + 1⟩ : CDate) ∈ sel) })

theorem getDay_lt (c : CDate) : getDay c < 7 := by
  unfold getDay
  omega

theorem prevCount_lt (y : Int) (m : Nat) (s : Int) : prevCount y m s < 7 := by
  unfold prevCount
  omega

/-- JS `new Date(y, m, d)` for a day argument that lands inside the
normalized month `(ny, nm)`. -/
theorem mkDate_eq (y m ny : Int) (nm : Nat)
    (h : makeFullYear y * 12 + m = ny * 12 + nm)
    (hnm : nm < 12) (d : Int) (hd1 : 1 ≤ d)
    (hd2 : d.toNat ≤ daysInMonth ny nm) :
    mkDate y m d = ⟨ny, nm, d.toNat⟩ := by
  have h1 : (makeFullYear y * 12 + m) / 12 = ny := by omega
  have h2 : ((makeFullYear y * 12 + m) % 12).toNat = nm := by omega
  simp only [mkDate, h1, h2, if_pos hd1]
  rw [addDaysFwd, if_pos hd2]

/-- JS `new Date(y, m, 0)`: the last day of the month preceding the
normalized month `(ny, nm)`. -/
theorem mkDate_zero_eq (y m ny : Int) (nm : Nat)
    (h : makeFullYear y * 12 + m = ny * 12 + nm)
    (hnm : nm < 12) :
    mkDate y m 0 =
      if nm = 0 then ⟨ny - 1, 11, 31⟩
      else ⟨ny, nm - 1, daysInMonth ny (nm - 1)⟩ := by
  have h1 : (makeFullYear y * 12 + m) / 12 = ny := by omega
  have h2 : ((makeFullYear y * 12 + m) % 12).toNat = nm := by omega
  simp only [mkDate, h1, h2, if_neg (by omega : ¬ (1 : Int) ≤ 0)]
  rw [subDaysBwd, if_neg (by omega : ¬ (1 : Int) ≤ 0)]
  by_cases h0 : nm = 0
  · rw [if_pos h0, if_pos h0]
    rw [subDaysBwd, if_pos (by omega : (1 : Int) ≤ 0 + 31)]
    rw [addDaysFwd, if_pos (by simp [daysInMonth] : ((0 : Int) + 31).toNat ≤ daysInMonth (ny - 1) 11)]
    congr 1
  · have hge := daysInMonth_ge ny (nm - 1)
    rw [if_neg h0, if_neg h0]
    rw [subDaysBwd, if_pos (by omega : (1 : Int) ≤ 0 + (daysInMonth ny (nm - 1) : Int))]
    rw [addDaysFwd, if_pos (by omega : ((0 : Int) + (daysInMonth ny (nm - 1) : Int)).toNat ≤ daysInMonth ny (nm - 1))]
    congr 1
    omega

/-- `new Date(y, m, 1)` for an in-range month is the first of that month. -/
theorem mkDate_first (y : Int) (m : Nat) (hm : m < 12) :
    mkDate y (m : Int) 1 = ⟨makeFullYear y, m, 1⟩ := by
  have := daysInMonth_ge (makeFullYear y) m
  have h := mkDate_eq y m (makeFullYear y) m rfl hm 1 (by omega) (by omega)
  simpa using h

/-- `new Date(y, m, 0)` for an in-range month is the last day of the
previous month. -/
theorem mkDate_prev_zero (y : Int) (m : Nat) (hm : m < 12) :
    mkDate y (m : Int) 0 =
      ⟨(prevYM (makeFullYear y) m).1, (prevYM (makeFullYear y) m).2,
        daysInMonth (prevYM (makeFullYear y) m).1
          (prevYM (makeFullYear y) m).2⟩ := by
  rw [mkDate_zero_eq y m (makeFullYear y) m rfl hm]
  unfold prevYM
  by_cases h0 : m = 0
  · subst h0
    simp [daysInMonth]
  · rw [if_neg (by omega), if_neg h0]

/-- `new Date(y, m + 1, 0)` for an in-range month is the last day of the
month `(y, m)` itself. -/
theorem mkDate_last (y : Int) (m : Nat) (hm : m < 12) :
    mkDate y ((m : Int) + 1) 0
      = ⟨makeFullYear y, m, daysInMonth (makeFullYear y) m⟩ := by
  by_cases h11 : m = 11
  · subst h11
    rw [mkDate_zero_eq y (((11 : Nat) : Int) + 1) (makeFullYear y + 1) 0
      (by omega) (by omega), if_pos rfl]
    have h31 : daysInMonth (makeFullYear y) 11 = 31 := rfl
    rw [h31]
    congr 1
    omega
  · rw [mkDate_zero_eq y ((m : Int) + 1) (makeFullYear y) (m + 1) (by omega)
      (by omega), if_neg (by omega)]
    have hmm : m + 1 - 1 = m := by omega
    rw [hmm]

/-- `new Date(y, m - 1, d)` for an in-range month and a day inside the
previous month. -/
theorem mkDate_prevMonth (y : Int) (m : Nat) (hm : m < 12) (d : Int)
    (hd1 : 1 ≤ d)
    (hd2 : d.toNat ≤ daysInMonth (prevYM (makeFullYear y) m).1
      (prevYM (makeFullYear y) m).2) :
    mkDate y ((m : Int) - 1) d
      = ⟨(prevYM (makeFullYear y) m).1, (prevYM (makeFullYear y) m).2,
        d.toNat⟩ := by
  by_cases h0 : m = 0
  · subst h0
    have h := mkDate_eq y (((0 : Nat) : Int) - 1) (makeFullYear y - 1) 11
      (by omega) (by omega) d hd1 (by simpa [prevYM] using hd2)
    simpa [prevYM] using h
  · have h := mkDate_eq y ((m : Int) - 1) (makeFullYear y) (m - 1) (by omega)
      (by omega) d hd1 (by simpa [prevYM, if_neg h0] using hd2)
    simpa [prevYM, if_neg h0] using h

/-- `new Date(y, m + 1, d)` for an in-range month and a day inside the
next month. -/
theorem mkDate_nextMonth (y : Int) (m : Nat) (hm : m < 12) (d : Int)
    (hd1 : 1 ≤ d)
    (hd2 : d.toNat ≤ daysInMonth (nextYM (makeFullYear y) m).1
      (nextYM (makeFullYear y) m).2) :
    mkDate y ((m : Int) + 1) d
      = ⟨(nextYM (makeFullYear y) m).1, (nextYM (makeFullYear y) m).2,
        d.toNat⟩ := by
  by_cases h11 : m = 11
  · subst h11
    have h := mkDate_eq y (((11 : Nat) : Int) + 1) (makeFullYear y + 1) 0
      (by omega) (by omega) d hd1 (by simpa [nextYM] using hd2)
    simpa [nextYM] using h
  · have h := mkDate_eq y ((m : Int) + 1) (makeFullYear y) (m + 1) (by omega)
      (by omega) d hd1 (by simpa [nextYM, if_neg h11] using hd2)
    simpa [nextYM, if_neg h11] using h

/-- Structure theorem: for a set year, an in-range month and a week start in
`0..6`, `getDaysData` produces exactly the three normalized segments of
`gridSpec`, computed at the effective (`MakeFullYear`-interpreted) year. -/
theorem getDaysData_eq_gridSpec (y : Int) (m : Nat) (s : Int)
    (sel : List CDate) (hy : y ≠ -1) (hm : m < 12) (hs0 : 0 ≤ s) (hs6 : s ≤ 6) :
    DayGrid.getDaysData y (m : Int) s sel
      = gridSpec (makeFullYear y) m s sel := by
  have hN28 := daysInMonth_ge (makeFullYear y) m
  have hN31 := daysInMonth_le (makeFullYear y) m
  have hp7 := prevCount_lt (makeFullYear y) m s
  have hpN28 := daysInMonth_ge (prevYM (makeFullYear y) m).1
    (prevYM (makeFullYear y) m).2
  have hpN31 := daysInMonth_le (prevYM (makeFullYear y) m).1
    (prevYM (makeFullYear y) m).2
  have hnN28 := daysInMonth_ge (nextYM (makeFullYear y) m).1
    (nextYM (makeFullYear y) m).2
  have hfd7 := getDay_lt (⟨makeFullYear y, m, 1⟩ : CDate)
  have hprevday : (mkDate y (m : Int) 0).day
      = daysInMonth (prevYM (makeFullYear y) m).1
        (prevYM (makeFullYear y) m).2 := by
    rw [mkDate_prev_zero y m hm]
  have hlastday : (mkDate y ((m : Int) + 1) 0).day
      = daysInMonth (makeFullYear y) m := by
    rw [mkDate_last y m hm]
  have hpe : (if ((getDay ⟨makeFullYear y, m, 1⟩ : Nat) : Int) - s < 0 then
        ((getDay ⟨makeFullYear y, m, 1⟩ : Nat) : Int) - s + 7
      else ((getDay ⟨makeFullYear y, m, 1⟩ : Nat) : Int) - s)
      = ((prevCount (makeFullYear y) m s : Nat) : Int) := by
    unfold prevCount firstWeekday
    split <;> omega
  simp only [DayGrid.getDaysData, gridSpec]
  rw [if_neg (by omega : ¬(y = -1 ∨ (m : Int) = -1))]
  rw [mkDate_first y m hm]
  simp only [hpe, hprevday, hlastday, List.length_map, List.length_range,
    Int.toNat_natCast]
  congr 1
  · congr 1
    · apply List.map_congr_left
      intro j hj
      have hj7 : j < prevCount (makeFullYear y) m s := List.mem_range.mp hj
      rw [mkDate_prevMonth y m hm _ (by omega) (by omega)]
      have hd : (((daysInMonth (prevYM (makeFullYear y) m).1
            (prevYM (makeFullYear y) m).2 : Nat) : Int)
          - (((prevCount (makeFullYear y) m s : Nat) : Int) - (j : Int)) + 1).toNat
          = daysInMonth (prevYM (makeFullYear y) m).1
              (prevYM (makeFullYear y) m).2
            - prevCount (makeFullYear y) m s + j + 1 := by
        omega
      rw [hd]
    · apply List.map_congr_left
      intro j hj
      have hjN : j < daysInMonth (makeFullYear y) m := List.mem_range.mp hj
      rw [mkDate_eq y (m : Int) (makeFullYear y) m rfl hm ((j : Int) + 1)
        (by omega) (by omega)]
      have hd : (((j : Nat) : Int) + 1).toNat = j + 1 := by omega
      rw [hd]
  · apply List.map_congr_left
    intro j hj
    have hjq : j < 42 - (prevCount (makeFullYear y) m s
        + daysInMonth (makeFullYear y) m) := List.mem_range.mp hj
    rw [mkDate_nextMonth y m hm ((j : Int) + 1) (by omega) (by omega)]
    have hd : (((j : Nat) : Int) + 1).toNat = j + 1 := by omega
    rw [hd]

theorem isLeap_iff (y : Int) :
    isLeap y = true ↔ (y % 4 = 0 ∧ (y % 100 ≠ 0 ∨ y % 400 = 0)) := by
  unfold isLeap
  simp [Bool.and_eq_true, Bool.or_eq_true, decide_eq_true_eq, bne_iff_ne]

/-- Moving one day later inside a month advances the epoch day count by 1. -/
theorem daysFromCivil_day_succ (y : Int) (m d : Nat) :
    daysFromCivil ⟨y, m, d + 1⟩ = daysFromCivil ⟨y, m, d⟩ + 1 := by
  simp only [daysFromCivil]
  split_ifs <;> push_cast <;> omega

/-- The first day of the next calendar month is one day after the last day
of the current month (the Gregorian leap rule makes the two counting
formulas agree at the February/March boundary). -/
theorem daysFromCivil_month_step (y : Int) (m : Nat) (hm : m < 12) :
    daysFromCivil ⟨(nextYM y m).1, (nextYM y m).2, 1⟩
      = daysFromCivil ⟨y, m, daysInMonth y m⟩ + 1 := by
  have hL := isLeap_iff y
  interval_cases m <;>
    simp only [nextYM, daysFromCivil, daysInMonth] <;>
    norm_num <;>
    first
      | omega
      | (split_ifs <;> simp_all <;> omega)

theorem prevYM_snd_lt (y : Int) (m : Nat) (hm : m < 12) : (prevYM y m).2 < 12 := by
  unfold prevYM
  split <;> dsimp only <;> omega

theorem nextYM_prevYM (y : Int) (m : Nat) (hm : m < 12) :
    nextYM (prevYM y m).1 (prevYM y m).2 = (y, m) := by
  by_cases h0 : m = 0
  · subst h0
    simp only [prevYM, nextYM, if_pos rfl, Prod.mk.injEq]
    norm_num
  · simp only [prevYM, nextYM, if_neg h0]
    rw [if_neg (by omega : ¬(m - 1 = 11))]
    have e : m - 1 + 1 = m := by omega
    rw [e]

/-- A mapped `range` is a chain when adjacent images are related. -/
theorem chain'_map_range {α : Type} (R : α → α → Prop) (f : Nat → α) (n : Nat)
    (h : ∀ j, j + 1 < n → R (f j) (f (j + 1))) :
    List.Chain' R ((List.range n).map f) := by
  rw [List.chain'_map]
  cases n with
  | zero => simp
  | succ k =>
    rw [List.chain'_range_succ]
    intro j hj
    exact h j (by omega)

theorem head?_map_range {α : Type} (f : Nat → α) (n : Nat) (hn : n ≠ 0) :
    ((List.range n).map f).head? = some (f 0) := by
  cases n with
  | zero => omega
  | succ k =>
    rw [List.range_succ_eq_map]
    simp

theorem getLast?_map_range {α : Type} (f : Nat → α) (n : Nat) (hn : n ≠ 0) :
    ((List.range n).map f).getLast? = some (f (n - 1)) := by
  cases n with
  | zero => omega
  | succ k =>
    rw [List.range_succ, List.map_append]
    simp

/-- The normalized grid is a chain of consecutive days: epoch day numbers
increase by exactly 1 between adjacent cells. -/
theorem gridSpec_chain (y : Int) (m : Nat) (s : Int) (sel : List CDate)
    (hm : m < 12) :
    List.Chain' (fun a b => daysFromCivil b.date = daysFromCivil a.date + 1)
      (gridSpec y m s sel) := by
  have hp7 := prevCount_lt y m s
  have hN28 := daysInMonth_ge y m
  have hN31 := daysInMonth_le y m
  have hpN28 := daysInMonth_ge (prevYM y m).1 (prevYM y m).2
  have hstep0 := daysFromCivil_month_step (prevYM y m).1 (prevYM y m).2
    (prevYM_snd_lt y m hm)
  rw [nextYM_prevYM y m hm] at hstep0
  have hstep1 := daysFromCivil_month_step y m hm
  simp only [gridSpec]
  rw [List.chain'_append, List.chain'_append]
  refine ⟨⟨?_, ?_, ?_⟩, ?_, ?_⟩
  · apply chain'_map_range
    intro j hj
    dsimp only
    have e : daysInMonth (prevYM y m).1 (prevYM y m).2 - prevCount y m s + (j + 1) + 1
        = (daysInMonth (prevYM y m).1 (prevYM y m).2 - prevCount y m s + j + 1) + 1 := by
      omega
    rw [e]
    exact daysFromCivil_day_succ _ _ _
  · apply chain'_map_range
    intro j hj
    dsimp only
    exact daysFromCivil_day_succ y m (j + 1)
  · intro x hx z hz
    by_cases hp0 : prevCount y m s = 0
    · rw [hp0] at hx
      simp at hx
    · rw [getLast?_map_range _ _ hp0] at hx
      rw [head?_map_range _ _ (by omega : daysInMonth y m ≠ 0)] at hz
      simp only [Option.mem_def, Option.some.injEq] at hx hz
      subst hx
      subst hz
      dsimp only
      have e : daysInMonth (prevYM y m).1 (prevYM y m).2 - prevCount y m s
          + (prevCount y m s - 1) + 1
          = daysInMonth (prevYM y m).1 (prevYM y m).2 := by
        omega
      rw [e]
      simpa using hstep0
  · apply chain'_map_range
    intro j hj
    dsimp only
    exact daysFromCivil_day_succ _ _ (j + 1)
  · intro x hx z hz
    rw [List.getLast?_append_of_ne_nil _ (by
      intro hcon
      have := congrArg List.length hcon
      simp at this
      omega)] at hx
    rw [getLast?_map_range _ _ (by omega : daysInMonth y m ≠ 0)] at hx
    rw [head?_map_range _ _
      (by omega : 42 - (prevCount y m s + daysInMonth y m) ≠ 0)] at hz
    simp only [Option.mem_def, Option.some.injEq] at hx hz
    subst hx
    subst hz
    dsimp only
    have e : daysInMonth y m - 1 + 1 = daysInMonth y m := by omega
    rw [e]
    simpa using hstep1

/-- A `takeWhile` over an append stops exactly at the end of the first part
when the first part is all-true and the second part starts false. -/
theorem takeWhile_append_eq {α : Type} (p : α → Bool) (B : List α)
    (hB : ∀ b ∈ B.head?, p b = false) :
    ∀ A : List α, (∀ a ∈ A, p a = true) → (A ++ B).takeWhile p = A := by
  intro A
  induction A with
  | nil =>
    intro _
    cases B with
    | nil => rfl
    | cons b B' =>
      have hb : p b = false := hB b rfl
      simp [List.takeWhile_cons, hb]
  | cons a A' ih =>
    intro hA
    have ha : p a = true := hA a (by simp)
    rw [List.cons_append, List.takeWhile_cons, if_pos ha,
      ih (fun x hx => hA x (by simp [hx]))]

/-! ## The claims -/

/-- C1. For every state with year and month set (not -1) and startDay
in 0..6, `getDaysData` returns exactly 42 day descriptors; if year or
month equals the unset sentinel -1, it returns the empty sequence (no
error). -/
theorem getDaysData_length :
    (∀ (y : Int) (m : Nat) (s : Int) (sel : List CDate),
      y ≠ -1 → m < 12 → 0 ≤ s → s ≤ 6 →
      (DayGrid.getDaysData y (m : Int) s sel).length = 42)
    ∧ (∀ (y mo s : Int) (sel : List CDate), y = -1 ∨ mo = -1 →
      DayGrid.getDaysData y mo s sel = []) := by
  constructor
  · intro y m s sel hy hm hs0 hs6
    rw [getDaysData_eq_gridSpec y m s sel hy hm hs0 hs6]
    have hp7 := prevCount_lt (makeFullYear y) m s
    have hN31 := daysInMonth_le (makeFullYear y) m
    simp only [gridSpec, List.length_append, List.length_map, List.length_range]
    omega
  · intro y mo s sel h
    unfold DayGrid.getDaysData
    rw [if_pos h]

/-- Witness for C1 at June 2023, Monday start, and at the unset year. -/
theorem getDaysData_length_witness :
    (DayGrid.getDaysData 2023 ((5 : Nat) : Int) 1 []).length = 42
    ∧ DayGrid.getDaysData (-1) 5 1 [] = [] :=
  ⟨getDaysData_length.1 2023 5 1 [] (by omega) (by omega) (by omega) (by omega),
   getDaysData_length.2 (-1) 5 1 [] (Or.inl rfl)⟩

/-- C2. For every set (year, month) and startDay in 0..6, the 42 dates
are strictly increasing by exactly one calendar day (consecutive epoch day
numbers), with no gaps and no duplicate dates. -/
theorem getDaysData_consecutive (y : Int) (m : Nat) (s : Int)
    (sel : List CDate) (hy : y ≠ -1) (hm : m < 12) (hs0 : 0 ≤ s) (hs6 : s ≤ 6) :
    List.Chain' (fun a b => daysFromCivil b.date = daysFromCivil a.date + 1)
      (DayGrid.getDaysData y (m : Int) s sel)
    ∧ ((DayGrid.getDaysData y (m : Int) s sel).map
        (fun dd => dd.date)).Nodup := by
  rw [getDaysData_eq_gridSpec y m s sel hy hm hs0 hs6]
  have hchain := gridSpec_chain (makeFullYear y) m s sel hm
  refine ⟨hchain, ?_⟩
  have hlt : List.Chain' (fun a b : DayData =>
      daysFromCivil a.date < daysFromCivil b.date)
      (gridSpec (makeFullYear y) m s sel) :=
    hchain.imp (by intro a b h; omega)
  haveI : IsTrans DayData (fun a b : DayData =>
      daysFromCivil a.date < daysFromCivil b.date) :=
    ⟨fun a b c hab hbc => lt_trans hab hbc⟩
  have hpw := List.chain'_iff_pairwise.mp hlt
  have hne : ∀ a b : DayData, daysFromCivil a.date < daysFromCivil b.date →
      a.date ≠ b.date := by
    intro a b hab hEq
    rw [hEq] at hab
    omega
  exact hpw.map (fun dd => dd.date) hne

/-- Witness for C2 at June 2023, Monday start. -/
theorem getDaysData_consecutive_witness :
    List.Chain' (fun a b => daysFromCivil b.date = daysFromCivil a.date + 1)
      (DayGrid.getDaysData 2023 ((5 : Nat) : Int) 1 [])
    ∧ ((DayGrid.getDaysData 2023 ((5 : Nat) : Int) 1 []).map
        (fun dd => dd.date)).Nodup :=
  getDaysData_consecutive 2023 5 1 [] (by omega) (by omega) (by omega) (by omega)

/-- C3 counterexample. At state year 23 (which the claim's hypotheses
admit) the program builds its dates through the JS constructor's
`MakeFullYear` rule, so the June grid's in-month descriptors carry date
year 1923: the claimed biconditional fails at the June 1st descriptor,
which is not disabled yet does not carry the requested year 23. -/
theorem getDaysData_disabled_iff_cex :
    (⟨⟨1923, 5, 1⟩, false, false⟩ : DayData)
        ∈ DayGrid.getDaysData 23 ((5 : Nat) : Int) 1 []
    ∧ ¬ ((⟨⟨1923, 5, 1⟩, false, false⟩ : DayData).disabled = false
        ↔ ((⟨⟨1923, 5, 1⟩, false, false⟩ : DayData).date.month = 5
          ∧ (⟨⟨1923, 5, 1⟩, false, false⟩ : DayData).date.year = 23)) := by
  constructor
  · rw [getDaysData_eq_gridSpec 23 5 1 [] (by omega) (by omega) (by omega)
      (by omega)]
    decide
  · decide

/-- C3 amended. A descriptor has `disabled = false` exactly when its
date's month equals the requested month and its year equals the year the
JS `Date` constructor derives from the stored year (`makeFullYear`:
1900 + year for stored years 0..99, the year itself otherwise). -/
theorem getDaysData_disabled_iff (y : Int) (m : Nat) (s : Int)
    (sel : List CDate) (hy : y ≠ -1) (hm : m < 12) (hs0 : 0 ≤ s) (hs6 : s ≤ 6) :
    ∀ dd ∈ DayGrid.getDaysData y (m : Int) s sel,
      (dd.disabled = false
        ↔ (dd.date.month = m ∧ dd.date.year = makeFullYear y)) := by
  rw [getDaysData_eq_gridSpec y m s sel hy hm hs0 hs6]
  intro dd hdd
  simp only [gridSpec, List.mem_append, List.mem_map, List.mem_range] at hdd
  rcases hdd with ((⟨j, hj, rfl⟩ | ⟨j, hj, rfl⟩) | ⟨j, hj, rfl⟩)
  · simp only [Bool.true_eq_false, false_iff]
    unfold prevYM
    split <;> dsimp only <;> rintro ⟨h1, h2⟩ <;> omega
  · simp
  · simp only [Bool.true_eq_false, false_iff]
    unfold nextYM
    split <;> dsimp only <;> rintro ⟨h1, h2⟩ <;> omega

/-- Witness for C3: the descriptor of June 1st inside the June 2023 grid. -/
theorem getDaysData_disabled_iff_witness :
    ((⟨⟨2023, 5, 1⟩, false, false⟩ : DayData).disabled = false
      ↔ ((⟨⟨2023, 5, 1⟩, false, false⟩ : DayData).date.month = 5
        ∧ (⟨⟨2023, 5, 1⟩, false, false⟩ : DayData).date.year
            = makeFullYear 2023)) := by
  apply getDaysData_disabled_iff 2023 5 1 [] (by omega) (by omega) (by omega)
    (by omega)
  rw [getDaysData_eq_gridSpec 2023 5 1 [] (by omega) (by omega) (by omega)
    (by omega)]
  decide

/-- C4 counterexample. At state year 23, June, Monday start, the program
takes the weekday of June 1st 1923 (a Friday, by the `MakeFullYear` rule)
and emits 4 leading cells, while the claim's formula with the weekday of
the stated target month's 1st (year 23, a Thursday) yields 3. -/
theorem getDaysData_leading_count_cex :
    ((DayGrid.getDaysData 23 ((5 : Nat) : Int) 1 []).takeWhile
        (fun dd => dd.disabled)).length
      ≠ (((firstWeekday 23 5 : Int) - 1) % 7).toNat := by
  rw [getDaysData_eq_gridSpec 23 5 1 [] (by omega) (by omega) (by omega)
    (by omega)]
  decide

/-- C4 amended. The leading run of previous-month cells has length
`(firstWeekday − startDay) mod 7`, where `firstWeekday` is the weekday of
the 1st of the month the program actually displays (the `MakeFullYear`
interpretation of the stored year); in particular it is empty when that
1st falls on `startDay`. -/
theorem getDaysData_leading_count (y : Int) (m : Nat) (s : Int)
    (sel : List CDate) (hy : y ≠ -1) (hm : m < 12) (hs0 : 0 ≤ s) (hs6 : s ≤ 6) :
    ((DayGrid.getDaysData y (m : Int) s sel).takeWhile
        (fun dd => dd.disabled)).length
      = (((firstWeekday (makeFullYear y) m : Int) - s) % 7).toNat
    ∧ ((firstWeekday (makeFullYear y) m : Int) = s →
      ((DayGrid.getDaysData y (m : Int) s sel).takeWhile
        (fun dd => dd.disabled)).length = 0) := by
  have hN28 := daysInMonth_ge (makeFullYear y) m
  have hkey : ((DayGrid.getDaysData y (m : Int) s sel).takeWhile
      (fun dd => dd.disabled)).length = prevCount (makeFullYear y) m s := by
    rw [getDaysData_eq_gridSpec y m s sel hy hm hs0 hs6]
    simp only [gridSpec]
    rw [List.append_assoc]
    rw [takeWhile_append_eq _ _ (by
        intro b hb
        rw [List.head?_append,
          head?_map_range _ _
            (by omega : daysInMonth (makeFullYear y) m ≠ 0)] at hb
        simp only [Option.or] at hb
        simp only [Option.mem_def, Option.some.injEq] at hb
        subst hb
        rfl) _ (by
        intro a ha
        simp only [List.mem_map, List.mem_range] at ha
        obtain ⟨j, hj, rfl⟩ := ha
        rfl)]
    simp
  refine ⟨?_, ?_⟩
  · rw [hkey]
    rfl
  · intro hfs
    rw [hkey]
    unfold prevCount
    omega

/-- Witness for C4 at June 2023, Monday start. -/
theorem getDaysData_leading_count_witness :
    ((DayGrid.getDaysData 2023 ((5 : Nat) : Int) 1 []).takeWhile
        (fun dd => dd.disabled)).length
      = (((firstWeekday (makeFullYear 2023) 5 : Int) - 1) % 7).toNat :=
  (getDaysData_leading_count 2023 5 1 [] (by omega) (by omega) (by omega)
    (by omega)).1

/-- C5 counterexample. At state year 23 (admitted by the claim) the
program displays December 1923, whose leading run has 5 cells, not the 4
given by the stated-year formula; the cell at position `leading + 31`
computed from the stated year is still an in-month December 1923 cell,
not a January cell of year 23 + 1. -/
theorem getDaysData_year_rollover_cex :
    (⟨⟨1923, 11, 31⟩, false, false⟩ : DayData)
        ∈ (DayGrid.getDaysData 23 ((11 : Nat) : Int) 1 []).drop
          (prevCount 23 11 1 + 31)
    ∧ ¬ ((⟨⟨1923, 11, 31⟩, false, false⟩ : DayData).date.month = 0
        ∧ (⟨⟨1923, 11, 31⟩, false, false⟩ : DayData).date.year = 23 + 1) := by
  constructor
  · rw [getDaysData_eq_gridSpec 23 11 1 [] (by omega) (by omega) (by omega)
      (by omega)]
    decide
  · decide

/-- C5 amended. Month boundaries roll the year of the displayed month
(the `MakeFullYear` interpretation of the stored year): a December grid's
trailing cells carry January of `makeFullYear year + 1`, and a January
grid's leading cells carry December of `makeFullYear year - 1`. -/
theorem getDaysData_year_rollover (y s : Int) (sel : List CDate)
    (hy : y ≠ -1) (hs0 : 0 ≤ s) (hs6 : s ≤ 6) :
    (∀ dd ∈ (DayGrid.getDaysData y ((11 : Nat) : Int) s sel).drop
        (prevCount (makeFullYear y) 11 s + 31),
      dd.date.month = 0 ∧ dd.date.year = makeFullYear y + 1)
    ∧ (∀ dd ∈ (DayGrid.getDaysData y ((0 : Nat) : Int) s sel).take
        (prevCount (makeFullYear y) 0 s),
      dd.date.month = 11 ∧ dd.date.year = makeFullYear y - 1) := by
  constructor
  · rw [getDaysData_eq_gridSpec y 11 s sel hy (by omega) hs0 hs6]
    simp only [gridSpec]
    rw [List.drop_left' (by
      simp only [List.length_append, List.length_map, List.length_range]
      simp [daysInMonth])]
    intro dd hdd
    simp only [List.mem_map, List.mem_range] at hdd
    obtain ⟨j, hj, rfl⟩ := hdd
    simp [nextYM]
  · rw [getDaysData_eq_gridSpec y 0 s sel hy (by omega) hs0 hs6]
    simp only [gridSpec]
    rw [List.append_assoc, List.take_left' (by
      simp only [List.length_map, List.length_range])]
    intro dd hdd
    simp only [List.mem_map, List.mem_range] at hdd
    obtain ⟨j, hj, rfl⟩ := hdd
    simp [prevYM]

/-- Witness for C5: the trailing cell dated January 1st in the December
2023 grid, Monday start. -/
theorem getDaysData_year_rollover_witness :
    (⟨⟨2024, 0, 1⟩, true, false⟩ : DayData).date.month = 0
    ∧ (⟨⟨2024, 0, 1⟩, true, false⟩ : DayData).date.year
        = makeFullYear 2023 + 1 := by
  apply (getDaysData_year_rollover 2023 1 [] (by omega) (by omega) (by omega)).1
  rw [getDaysData_eq_gridSpec 2023 11 1 [] (by omega) (by omega) (by omega)
    (by omega)]
  decide

/-- C6. Every descriptor's `selected` flag is true exactly when its
date key belongs to `selectedDates`; with the singleton selection
2023-06-15 in the June 2023 grid, exactly the descriptor carrying that
date reads selected, and that descriptor occurs in the grid. -/
theorem getDaysData_selected_iff :
    (∀ (y mo s : Int) (sel : List CDate),
      ∀ dd ∈ DayGrid.getDaysData y mo s sel,
        (dd.selected = true ↔ dd.date ∈ sel))
    ∧ (∀ s : Int, 0 ≤ s → s ≤ 6 →
      (∀ dd ∈ DayGrid.getDaysData 2023 ((5 : Nat) : Int) s [⟨2023, 5, 15⟩],
        (dd.selected = true ↔ dd.date = ⟨2023, 5, 15⟩))
      ∧ ({ date := ⟨2023, 5, 15⟩, disabled := false, selected := true } : DayData)
          ∈ DayGrid.getDaysData 2023 ((5 : Nat) : Int) s [⟨2023, 5, 15⟩]) := by
  have hGen : ∀ (y mo s : Int) (sel : List CDate),
      ∀ dd ∈ DayGrid.getDaysData y mo s sel,
        (dd.selected = true ↔ dd.date ∈ sel) := by
    intro y mo s sel dd hdd
    unfold DayGrid.getDaysData at hdd
    split at hdd
    · simp at hdd
    · simp only [List.mem_append, List.mem_map, List.mem_range] at hdd
      rcases hdd with ((⟨j, hj, rfl⟩ | ⟨j, hj, rfl⟩) | ⟨j, hj, rfl⟩) <;>
        simp [decide_eq_true_eq]
  refine ⟨hGen, ?_⟩
  intro s hs0 hs6
  constructor
  · intro dd hdd
    rw [hGen 2023 _ s _ dd hdd]
    simp
  · rw [getDaysData_eq_gridSpec 2023 5 s _ (by omega) (by omega) hs0 hs6]
    simp only [gridSpec]
    refine List.mem_append_left _ (List.mem_append_right _ ?_)
    simp only [List.mem_map, List.mem_range]
    refine ⟨14, by decide, by decide⟩

/-- Witness for C6: the descriptor of the selected date 2023-06-15 in the
Sunday-start June 2023 grid. -/
theorem getDaysData_selected_iff_witness :
    ((⟨⟨2023, 5, 15⟩, false, true⟩ : DayData).selected = true
      ↔ (⟨⟨2023, 5, 15⟩, false, true⟩ : DayData).date = ⟨2023, 5, 15⟩)
    ∧ (⟨⟨2023, 5, 15⟩, false, true⟩ : DayData)
        ∈ DayGrid.getDaysData 2023 ((5 : Nat) : Int) 0 [⟨2023, 5, 15⟩] := by
  have h := getDaysData_selected_iff.2 0 (by omega) (by omega)
  exact ⟨h.1 _ h.2, h.2⟩

/-- C7 counterexample. At state year 0 (admitted by the claim) the
program displays February 1900 — 28 days, since 1900 is not a Gregorian
leap year — while the Gregorian day count of February of the stated year
0 is 29 (year 0 is divisible by 400). -/
theorem getDaysData_inMonth_count_cex :
    (DayGrid.getDaysData 0 ((1 : Nat) : Int) 0 []).countP
      (fun dd => !dd.disabled) ≠ daysInMonth 0 1 := by
  rw [getDaysData_eq_gridSpec 0 1 0 [] (by omega) (by omega) (by omega)
    (by omega)]
  decide

/-- C7 amended. The in-month (not-disabled) span has exactly the day
count of the displayed month — the Gregorian `daysInMonth` at the
`MakeFullYear` interpretation of the stored year; in particular 29
entries for February 2024 (leap) and 28 for February 2023. -/
theorem getDaysData_inMonth_count :
    (∀ (y : Int) (m : Nat) (s : Int) (sel : List CDate),
      y ≠ -1 → m < 12 → 0 ≤ s → s ≤ 6 →
      (DayGrid.getDaysData y (m : Int) s sel).countP (fun dd => !dd.disabled)
        = daysInMonth (makeFullYear y) m)
    ∧ (DayGrid.getDaysData 2024 ((1 : Nat) : Int) 0 []).countP
        (fun dd => !dd.disabled) = 29
    ∧ (DayGrid.getDaysData 2023 ((1 : Nat) : Int) 0 []).countP
        (fun dd => !dd.disabled) = 28 := by
  have hGen : ∀ (y : Int) (m : Nat) (s : Int) (sel : List CDate),
      y ≠ -1 → m < 12 → 0 ≤ s → s ≤ 6 →
      (DayGrid.getDaysData y (m : Int) s sel).countP (fun dd => !dd.disabled)
        = daysInMonth (makeFullYear y) m := by
    intro y m s sel hy hm hs0 hs6
    rw [getDaysData_eq_gridSpec y m s sel hy hm hs0 hs6]
    simp only [gridSpec, List.countP_append, List.countP_map, Function.comp_def]
    simp [List.countP_false, List.countP_true]
  refine ⟨hGen, ?_, ?_⟩
  · have h := hGen 2024 1 0 [] (by omega) (by omega) (by omega) (by omega)
    have e : daysInMonth (makeFullYear 2024) 1 = 29 := by decide
    rw [e] at h
    exact h
  · have h := hGen 2023 1 0 [] (by omega) (by omega) (by omega) (by omega)
    have e : daysInMonth (makeFullYear 2023) 1 = 28 := by decide
    rw [e] at h
    exact h

/-- Witness for C7 at March 2025, Wednesday start. -/
theorem getDaysData_inMonth_count_witness :
    (DayGrid.getDaysData 2025 ((2 : Nat) : Int) 3 []).countP
      (fun dd => !dd.disabled) = daysInMonth (makeFullYear 2025) 2 :=
  getDaysData_inMonth_count.1 2025 2 3 [] (by omega) (by omega) (by omega)
    (by omega)

/-- C8. `getDaysData` is a pure function of the four state fields: the
state-passing translation leaves the state (in particular
`selectedDates`) unchanged, and calling it again on the state returned by
the first call yields an element-wise equal sequence. -/
theorem getDaysData_pure (st : DayGrid.GridState) :
    (DayGrid.getDaysDataM st).1 = st
    ∧ (DayGrid.getDaysDataM st).1.selectedDates = st.selectedDates
    ∧ (DayGrid.getDaysDataM ((DayGrid.getDaysDataM st).1)).2
        = (DayGrid.getDaysDataM st).2 :=
  ⟨rfl, rfl, rfl⟩

/-- C9 counterexample. The state year 0, month 0 (January) satisfies
the claim's hypotheses (year ≠ -1, month in 0..11), yet `previousMonth`
then `nextMonth` does not restore it: `previousMonth` moves to December of
year -1, which is the unset sentinel, so `nextMonth` refuses to move. -/
theorem month_nav_roundtrip_cex :
    DayGrid.nextMonth (DayGrid.previousMonth ⟨0, 0, 1, []⟩) ≠ ⟨0, 0, 1, []⟩ := by
  decide

/-- C9 amended. For year ≠ -1 and month in 0..11, `previousMonth`
then `nextMonth` restores (year, month) provided the intermediate year is
not the sentinel -1 (i.e. unless month = 0 and year = 0), and `nextMonth`
then `previousMonth` restores it unless month = 11 and year = -2; both
operations keep month within 0..11, and both leave sentinel states
unchanged. -/
theorem month_nav_roundtrip :
    (∀ st : DayGrid.GridState, st.year ≠ -1 → 0 ≤ st.month → st.month ≤ 11 →
      ((st.month = 0 → st.year ≠ 0) →
        DayGrid.nextMonth (DayGrid.previousMonth st) = st)
      ∧ ((st.month = 11 → st.year ≠ -2) →
        DayGrid.previousMonth (DayGrid.nextMonth st) = st)
      ∧ (0 ≤ (DayGrid.previousMonth st).month
          ∧ (DayGrid.previousMonth st).month ≤ 11)
      ∧ (0 ≤ (DayGrid.nextMonth st).month
          ∧ (DayGrid.nextMonth st).month ≤ 11))
    ∧ (∀ st : DayGrid.GridState, st.year = -1 ∨ st.month = -1 →
      DayGrid.previousMonth st = st ∧ DayGrid.nextMonth st = st) := by
  constructor
  · intro st hy h0 h11
    obtain ⟨yy, mm, ss, sel⟩ := st
    simp only at hy h0 h11
    simp only [DayGrid.previousMonth, DayGrid.nextMonth]
    refine ⟨?_, ?_, ?_, ?_⟩ <;>
      split_ifs <;>
      simp_all [DayGrid.GridState.mk.injEq] <;>
      omega
  · intro st h
    unfold DayGrid.previousMonth DayGrid.nextMonth
    rw [if_pos h, if_pos h]
    exact ⟨rfl, rfl⟩

/-- Witness for C9 at June 2023 and at an unset-year state. -/
theorem month_nav_roundtrip_witness :
    DayGrid.nextMonth (DayGrid.previousMonth ⟨2023, 5, 1, []⟩) = ⟨2023, 5, 1, []⟩
    ∧ DayGrid.previousMonth ⟨-1, 5, 1, []⟩ = ⟨-1, 5, 1, []⟩ :=
  ⟨(month_nav_roundtrip.1 ⟨2023, 5, 1, []⟩ (by decide) (by decide)
      (by decide)).1 (by decide),
   (month_nav_roundtrip.2 ⟨-1, 5, 1, []⟩ (Or.inl rfl)).1⟩

/-- C10. `deselect` removes every stored entry equal to the cell's
date and keeps all other entries, in order and with multiplicity;
`select` appends the date unconditionally, so selecting an
already-selected date produces a duplicate entry. -/
theorem select_deselect_spec (st : DayGrid.GridState) (d : CDate) :
    d ∉ (DayGrid.deselect st d).selectedDates
    ∧ (DayGrid.deselect st d).selectedDates.Sublist st.selectedDates
    ∧ (∀ x : CDate, x ≠ d →
        (DayGrid.deselect st d).selectedDates.count x
          = st.selectedDates.count x)
    ∧ (DayGrid.select st d).selectedDates.count d
        = st.selectedDates.count d + 1
    ∧ (d ∈ st.selectedDates →
        2 ≤ (DayGrid.select st d).selectedDates.count d) := by
  refine ⟨?_, ?_, ?_, ?_, ?_⟩
  · intro hmem
    simp only [DayGrid.deselect] at hmem
    rw [List.mem_filter] at hmem
    simp at hmem
  · simp only [DayGrid.deselect]
    exact List.filter_sublist _
  · intro x hx
    simp only [DayGrid.deselect]
    exact List.count_filter (by simp [hx])
  · simp only [DayGrid.select]
    rw [List.count_append]
    simp
  · intro hd
    have h1 : 0 < st.selectedDates.count d := List.count_pos_iff.mpr hd
    have h2 : ([d] : List CDate).count d = 1 := by simp
    simp only [DayGrid.select]
    rw [List.count_append]
    omega

/-- Witness for C10: removing 2023-06-14 keeps the count of 2023-06-15,
and re-selecting 2023-06-15 puts its count at 2 or more. -/
theorem select_deselect_spec_witness :
    (DayGrid.deselect ⟨2023, 5, 0, [⟨2023, 5, 15⟩]⟩
        ⟨2023, 5, 14⟩).selectedDates.count ⟨2023, 5, 15⟩
      = ([⟨2023, 5, 15⟩] : List CDate).count ⟨2023, 5, 15⟩
    ∧ 2 ≤ (DayGrid.select ⟨2023, 5, 0, [⟨2023, 5, 15⟩]⟩
        ⟨2023, 5, 15⟩).selectedDates.count ⟨2023, 5, 15⟩ :=
  ⟨(select_deselect_spec ⟨2023, 5, 0, [⟨2023, 5, 15⟩]⟩ ⟨2023, 5, 14⟩).2.2.1
      ⟨2023, 5, 15⟩ (by decide),
   (select_deselect_spec ⟨2023, 5, 0, [⟨2023, 5, 15⟩]⟩ ⟨2023, 5, 15⟩).2.2.2.2
      (by decide)⟩

end Components
